import Mathlib

/-!
Verification of the DocuMorph client orchestration
(`src/assets/js/scripts.js`) against its natural-language specification.

The JavaScript source is shallowly embedded: pure helpers become Lean
functions; the stateful orchestration (`processFilesWithProxy`) becomes a
pure function from the tool inputs, the staged files, an environment that
supplies the outcome of each network effect (upload results, conversion
response), and the persisted usage store, to a run result holding the
event trace, the outcome, the final UI state and the final usage store.
JavaScript numbers that hold exact small integers are modelled as `Nat`;
the fractional progress spans (`70 / files.length`) are modelled as `ℚ`.
Calendar dates (`toLocaleDateString()` strings) are opaque `String`s.
-/

namespace DocuMorph

/-- `const DAILY_LIMIT = 5` in scripts.js. -/
def DAILY_LIMIT : Nat := 5

/-- `const MAX_UPLOAD_MB = 50` in scripts.js. -/
def MAX_UPLOAD_MB : Nat := 50

/-- The persisted Daily Usage Record (`localStorage` key `documorph_usage`):
`{date, count}`. -/
structure UsageRecord where
  date : String
  count : Nat
deriving DecidableEq, Repr

/-- The usage store: `none` models a missing key or a value whose JSON
parse fails (both fall back to the default in `getUsage`). -/
abbrev UsageStore := Option UsageRecord

/-- Embeds `getUsage()`: reads the record, falls back to
`{date: today, count: 0}` when absent/unparsable, and resets the in-memory
copy to `{date: today, count: 0}` when the stored date is not today. -/
def getUsage (store : UsageStore) (today : String) : UsageRecord :=
  match store with
  | none => { date := today, count := 0 }
  | some d => if d.date ≠ today then { date := today, count := 0 } else d

/-- Embeds `checkDailyLimit()`: returns `false` when
`getUsage().count >= DAILY_LIMIT`, else `true`. The second component is
the store after the call — the function performs no `setItem`, so the
store is returned unchanged, exactly as in the source. -/
def checkDailyLimit (store : UsageStore) (today : String) : Bool × UsageStore :=
  let d := getUsage store today
  (decide (d.count < DAILY_LIMIT), store)

/-- Embeds `incrementUsage()`: re-reads via `getUsage`, adds 1 to the
count, writes the record back. -/
def incrementUsage (store : UsageStore) (today : String) : UsageStore :=
  let d := getUsage store today
  some { d with count := d.count + 1 }

/-- ASCII lower-casing of one character (JS `toLowerCase` restricted to
the ASCII range, which covers every string the code compares against). -/
def lowerChar (c : Char) : Char :=
  if 65 ≤ c.toNat ∧ c.toNat ≤ 90 then Char.ofNat (c.toNat + 32) else c

/-- ASCII upper-casing of one character (JS `toUpperCase`, ASCII range). -/
def upperChar (c : Char) : Char :=
  if 97 ≤ c.toNat ∧ c.toNat ≤ 122 then Char.ofNat (c.toNat - 32) else c

/-- JS `String.prototype.toLowerCase` (ASCII model). -/
def jsToLower (s : String) : String := String.mk (s.data.map lowerChar)

/-- JS `String.prototype.toUpperCase` (ASCII model). -/
def jsToUpper (s : String) : String := String.mk (s.data.map upperChar)

/-- Splits a character list at every occurrence of `sep`
(accumulator holds the current chunk reversed). -/
def splitChars (sep : Char) : List Char → List Char → List (List Char)
  | [], acc => [acc.reverse]
  | c :: cs, acc =>
    if c = sep then acc.reverse :: splitChars sep cs []
    else splitChars sep cs (c :: acc)

/-- JS `String.prototype.split` with a one-character separator
(`"".split(".")` = `[""]`, like in JS). -/
def jsSplit (sep : Char) (s : String) : List String :=
  (splitChars sep s.data []).map String.mk

/-- The whitespace characters JS `trim` strips (the ones that occur here). -/
def isJsSpace (c : Char) : Bool :=
  c == ' ' || c == '\t' || c == '\n' || c == '\r'

/-- JS `String.prototype.trim`. -/
def jsTrim (s : String) : String :=
  String.mk (((s.data.dropWhile isJsSpace).reverse.dropWhile isJsSpace).reverse)

/-- Embeds `getFileExt`'s MIME fallback table (lower-cased MIME → extension,
unknown MIME → `""`). -/
def mimeToExt (mime : String) : String :=
  if mime = "image/jpeg" then "jpg"
  else if mime = "image/jpg" then "jpg"
  else if mime = "image/png" then "png"
  else if mime = "image/webp" then "webp"
  else if mime = "application/pdf" then "pdf"
  else if mime = "application/vnd.openxmlformats-officedocument.wordprocessingml.document" then "docx"
  else if mime = "application/msword" then "doc"
  else ""

/-- A local file handle as the orchestration sees it: name, MIME type,
byte size, and (for Resize) the natural pixel dimensions that
`getImageDimensions` would read by decoding the image off-screen. -/
structure FileData where
  name : String
  mime : String
  size : Nat
  width : Nat
  height : Nat
deriving DecidableEq, Repr

/-- Embeds `getFileExt(file)`: the lower-cased text after the last `.` of
the name when there is one, else the MIME fallback, else `""`. -/
def getFileExt (f : FileData) : String :=
  let parts := jsSplit '.' f.name
  let ext := if parts.length > 1 then jsToLower (parts.getLastD "") else ""
  if ext ≠ "" then ext else mimeToExt (jsToLower f.mime)

/-- Embeds `normalizeImageExt(ext)`. -/
def normalizeImageExt (ext : String) : String :=
  let e := jsToLower ext
  if e = "jpeg" then "jpg"
  else if ["jpg", "png", "webp", "tiff", "bmp"].contains e then e
  else "jpg"

/-- The active tool view (`appState.view`). -/
inductive View
  | convert
  | compress
  | resize
  | merge
deriving DecidableEq, Repr

/-- JavaScript `Math.round` on a non-negative rational: half-up rounding. -/
def jsRound (q : ℚ) : ℤ := ⌊q + 1 / 2⌋

/-- The tool selection plus the view-specific DOM inputs that
`buildConvertTypeAndParams` reads: the compress mode radio
(`comp-mode`, defaulting to `"auto"`), the 1–9 compression slider, the
target-size number input and its unit dropdown, the raw resize width and
height text inputs, and the selected scale percent (100/75/50/25 from
`getSelectedScalePercent`). -/
structure ToolInputs where
  view : View
  subTool : String
  compMode : String
  slider : Nat
  targetSizeVal : ℚ
  targetUnit : String
  resizeW : String
  resizeH : String
  scalePct : Nat
deriving DecidableEq, Repr

/-- The operation-specific parameter object assembled by
`buildConvertTypeAndParams` (`params` in the source); a `none` field is a
key that was never set. -/
structure ConvParams where
  Preset : Option String := none
  Quality : Option String := none
  ImageWidth : Option String := none
  ImageHeight : Option String := none
  CompressionFileSize : Option String := none
deriving DecidableEq, Repr

/-- Embeds `buildConvertTypeAndParams(file)`: resolves the remote
operation name (`type`, empty when no view/subTool combination matches)
and the parameter set, reading `appState` and the DOM through `inp`.
The natural pixel dimensions that the source awaits from
`getImageDimensions(file)` in the resize branch are taken from
`file.width`/`file.height`. -/
def buildConvertTypeAndParams (inp : ToolInputs) (file : FileData) :
    String × ConvParams :=
  let ext := getFileExt file
  if inp.view = View.convert then
    let t :=
      if inp.subTool = "word-to-pdf" then
        (if ext = "doc" then "doc/to/pdf" else "docx/to/pdf")
      else if inp.subTool = "pdf-to-word" then "pdf/to/docx"
      else if inp.subTool = "excel-to-pdf" then
        (if ext = "xls" then "xls/to/pdf" else "xlsx/to/pdf")
      else if inp.subTool = "pdf-to-excel" then "pdf/to/xlsx"
      else if inp.subTool = "jpg-to-png" then "jpg/to/png"
      else if inp.subTool = "png-to-jpg" then "png/to/jpg"
      else ""
    (t, {})
  else if inp.view = View.compress then
    if inp.subTool = "comp-pdf" then
      let preset :=
        if inp.compMode = "auto" then
          (if inp.slider ≤ 3 then "screen"
           else if inp.slider ≤ 6 then "ebook"
           else "printer")
        else "ebook"
      ("pdf/to/compress", { Preset := some preset })
    else
      let imgExt := normalizeImageExt ext
      let t := imgExt ++ "/to/compress"
      if inp.compMode = "auto" then
        let q :=
          if imgExt = "jpg" then
            some (toString (max 10 (min 95 (inp.slider * 10))))
          else none
        let preset :=
          if inp.slider ≤ 3 then "screen"
          else if inp.slider ≤ 6 then "ebook"
          else "printer"
        (t, { Quality := q, Preset := some preset })
      else
        let unit := jsToUpper (jsTrim inp.targetUnit)
        let cfs :=
          if 0 < inp.targetSizeVal then
            some (toString (jsRound
              (if unit = "MB" then inp.targetSizeVal * 1024 else inp.targetSizeVal)))
          else none
        (t, { CompressionFileSize := cfs, Preset := some "screen" })
  else if inp.view = View.resize then
    let imgExt := normalizeImageExt ext
    let t := imgExt ++ "/to/" ++ imgExt
    let wRaw := jsTrim inp.resizeW
    let hRaw := jsTrim inp.resizeH
    if wRaw ≠ "" ∨ hRaw ≠ "" then
      (t, { ImageWidth := if wRaw ≠ "" then some wRaw else none,
            ImageHeight := if hRaw ≠ "" then some hRaw else none })
    else if inp.scalePct ≠ 100 then
      let newW := max 1 ((file.width * inp.scalePct + 50) / 100)
      let newH := max 1 ((file.height * inp.scalePct + 50) / 100)
      (t, { ImageWidth := some (toString newW),
            ImageHeight := some (toString newH) })
    else (t, {})
  else
    ("pdf/to/merge", {})

/-- One output artifact in the conversion response
(`d.Files[i]` = `{Url, FileName, FileSize}`). -/
structure OutFile where
  Url : String
  FileName : String
  FileSize : Nat
deriving DecidableEq, Repr

/-- The outcome of the single `/api/convert` fetch, as the orchestration
observes it after `withTimeout` and body parsing: the race timed out, a
non-OK HTTP status, an OK response whose body fails `JSON.parse`, or a
parsed body carrying its `Files` list (`[]` when `Files` is missing or
empty). -/
inductive ConvertResult
  | timeout
  | notOk (status : Nat)
  | okMalformed
  | ok (Files : List OutFile)
deriving DecidableEq, Repr

/-- The environment supplying the outcome of each network effect of one
run: `upload i` is the result of the i-th `uploadToBlob` call (`none` =
that upload failed after its internal retries), and `convert` the outcome
of the conversion fetch. -/
structure Env where
  upload : Nat → Option String
  convert : ConvertResult

/-- Observable events of one orchestration run, in order: an
`uploadToBlob(file_i, offset, span)` invocation (Upload Transport), the
`/api/convert` fetch (Conversion Invoker) with its body's `fileUrl`,
`files` and query `type`, an `incrementUsage()` call, a `showSuccess`
call, and a `resetApp()` call. -/
inductive Event
  | upload (i : Nat) (offset span : ℚ)
  | convertCall (fileUrl : Option String) (files : Option (List String)) (ctype : String)
  | incUsage
  | showSuccess
  | reset
deriving DecidableEq, Repr

/-- The distinguishable failure reasons of `processFilesWithProxy`
(the distinct thrown/alerted errors). -/
inductive Reason
  | noFile
  | uploadFailed
  | unrecognizedTool
  | convertTimeout
  | convertHttpError (status : Nat)
  | malformedResponse
  | noOutput
deriving DecidableEq, Repr

/-- Final outcome of one run. -/
inductive Outcome
  | success (resultUrl : String)
  | failure (reason : Reason)
deriving DecidableEq, Repr

/-- Which main screen the UI shows. -/
inductive Screen
  | dropzone
  | processing
  | success
deriving DecidableEq, Repr

/-- The mutable UI-visible state the orchestration touches:
`appState.files`, `appState.resultUrl`, the process progress percentage,
and the visible screen. -/
structure UIState where
  files : List FileData
  resultUrl : Option String
  progress : Nat
  screen : Screen
deriving DecidableEq, Repr

/-- Embeds `resetApp()`: staged files emptied, `resultUrl` nulled,
progress bars back to `0%`, initial drop-zone shown. -/
def resetUIState : UIState :=
  { files := [], resultUrl := none, progress := 0, screen := Screen.dropzone }

/-- The observable result of one `processFilesWithProxy` run. -/
structure RunResult where
  events : List Event
  outcome : Outcome
  ui : UIState
  store : UsageStore
deriving Repr

/-- The sequential staging loop of the merge branch (and, with count 1,
the single-file branch): calls `uploadToBlob(files[i], i*step, step)` for
`i = start, start+1, ...`, awaiting each before the next; stops at the
first failure. Returns the upload events in call order and the staged
URLs when every upload succeeded. -/
def stageLoop (upload : Nat → Option String) (step : ℚ) :
    Nat → Nat → List Event × Option (List String)
  | _, 0 => ([], some [])
  | start, count + 1 =>
    match upload start with
    | none => ([Event.upload start (start * step) step], none)
    | some u =>
      let rest := stageLoop upload step (start + 1) count
      (Event.upload start (start * step) step :: rest.1,
       rest.2.map (fun us => u :: us))

/-- Embeds `processFilesWithProxy()`. The staged files come in as
`files` (`appState.files`), the usage store and today's date string as
`store`/`today`. Every path mirrors the source: no file → throw; merge →
stage each file sequentially with span `70 / files.length`, else stage
the first file with span 70; a staging failure propagates to the catch
(alert + `resetApp`); then resolve the operation, failing locally when
the type is empty; then the single conversion fetch; a non-OK status
alerts and calls `resetApp` and rethrows (so `resetApp` runs again in the
catch); an OK response with a non-empty `Files` list sets progress 100,
stores the result URL, increments usage once, and shows success; an empty
`Files` list or unparsable body throws into the catch. -/
def processFilesWithProxy (inp : ToolInputs) (files : List FileData)
    (env : Env) (store : UsageStore) (today : String) : RunResult :=
  match files with
  | [] =>
    { events := [Event.reset], outcome := Outcome.failure Reason.noFile,
      ui := resetUIState, store := store }
  | first :: _ =>
    let n := files.length
    let staged :=
      if inp.view = View.merge then
        stageLoop env.upload (70 / (n : ℚ)) 0 n
      else
        stageLoop env.upload 70 0 1
    match staged.2 with
    | none =>
      { events := staged.1 ++ [Event.reset],
        outcome := Outcome.failure Reason.uploadFailed,
        ui := resetUIState, store := store }
    | some urls =>
      let tp := buildConvertTypeAndParams inp first
      if tp.1 = "" then
        { events := staged.1 ++ [Event.reset],
          outcome := Outcome.failure Reason.unrecognizedTool,
          ui := resetUIState, store := store }
      else
        let callEv := Event.convertCall
          (if inp.view = View.merge then none else urls.head?)
          (if inp.view = View.merge then some urls else none)
          tp.1
        match env.convert with
        | ConvertResult.timeout =>
          { events := staged.1 ++ [callEv, Event.reset],
            outcome := Outcome.failure Reason.convertTimeout,
            ui := resetUIState, store := store }
        | ConvertResult.notOk s =>
          { events := staged.1 ++ [callEv, Event.reset, Event.reset],
            outcome := Outcome.failure (Reason.convertHttpError s),
            ui := resetUIState, store := store }
        | ConvertResult.okMalformed =>
          { events := staged.1 ++ [callEv, Event.reset],
            outcome := Outcome.failure Reason.malformedResponse,
            ui := resetUIState, store := store }
        | ConvertResult.ok [] =>
          { events := staged.1 ++ [callEv, Event.reset],
            outcome := Outcome.failure Reason.noOutput,
            ui := resetUIState, store := store }
        | ConvertResult.ok (f0 :: _) =>
          { events := staged.1 ++ [callEv, Event.incUsage, Event.showSuccess],
            outcome := Outcome.success f0.Url,
            ui := { files := files, resultUrl := some f0.Url,
                    progress := 100, screen := Screen.success },
            store := incrementUsage store today }

/-- Counts the Upload Transport invocations in a trace. -/
def countUploads : List Event → Nat
  | [] => 0
  | Event.upload _ _ _ :: es => countUploads es + 1
  | _ :: es => countUploads es

/-- Counts the Conversion Invoker invocations in a trace. -/
def countConverts : List Event → Nat
  | [] => 0
  | Event.convertCall _ _ _ :: es => countConverts es + 1
  | _ :: es => countConverts es

/-- Counts the `incrementUsage()` calls in a trace. -/
def countInc : List Event → Nat
  | [] => 0
  | Event.incUsage :: es => countInc es + 1
  | _ :: es => countInc es

/-- Whether an outcome is a success. -/
def Outcome.isSuccess : Outcome → Bool
  | Outcome.success _ => true
  | Outcome.failure _ => false

/-- `multipartDecision` in `uploadToBlob`:
`file.size > 4.5 * 1024 * 1024` (4.5 MiB = 4718592 bytes). -/
def multipartDecision (size : Nat) : Bool := decide (4718592 < size)

/-- One attempt of the Vercel Blob `upload` call inside `uploadToBlob`'s
retry loop; `multipart` is the transfer-mode option passed to it. -/
structure BlobAttempt where
  multipart : Bool
deriving DecidableEq, Repr

/-- Outcome of `uploadToBlob`. -/
inductive BlobOutcome
  | ok (url : String)
  | failed
deriving DecidableEq, Repr

/-- Embeds the non-iOS retry loop of `uploadToBlob(file, ...)`
(`maxAttempts = 2`, unrolled): `attemptResult k` is the result of the
k-th `upload(...)` call (`none` = it threw or timed out). The
`multipart` option is computed once from the file size and passed
unchanged to every attempt. Returns the attempts made, in order, and the
final outcome. -/
def uploadToBlobAttempts (size : Nat) (attemptResult : Nat → Option String) :
    List BlobAttempt × BlobOutcome :=
  let m := multipartDecision size
  match attemptResult 1 with
  | some u => ([{ multipart := m }], BlobOutcome.ok u)
  | none =>
    match attemptResult 2 with
    | some u => ([{ multipart := m }, { multipart := m }], BlobOutcome.ok u)
    | none => ([{ multipart := m }, { multipart := m }], BlobOutcome.failed)

/-! ## Concrete example inputs

Fixed inputs used to evaluate the model on specific runs (the closed
counterexample and witness theorems below). -/

/-- A Word document file as staged by scenario A of the spec. -/
def cFileDoc : FileData :=
  { name := "report.docx", mime := "", size := 1000, width := 0, height := 0 }

/-- A PNG image file. -/
def cFilePng : FileData :=
  { name := "photo.png", mime := "image/png", size := 2048, width := 0, height := 0 }

/-- A JPEG image file. -/
def cFileJpg : FileData :=
  { name := "photo.jpg", mime := "image/jpeg", size := 2048, width := 0, height := 0 }

/-- An 800×600 PNG image, as in scenario C of the spec. -/
def cFile800 : FileData :=
  { name := "pic.png", mime := "image/png", size := 4096, width := 800, height := 600 }

/-- The default tool selection at startup
(`view: "convert"`, `subTool: "word-to-pdf"`, slider 5, scale 100%). -/
def baseInputs : ToolInputs :=
  { view := View.convert, subTool := "word-to-pdf", compMode := "auto", slider := 5,
    targetSizeVal := 0, targetUnit := "MB", resizeW := "", resizeH := "", scalePct := 100 }

/-- A tool selection whose `subTool` has no mapping in
`buildConvertTypeAndParams` (resolution yields the empty type). -/
def cInpUnmapped : ToolInputs := { baseInputs with subTool := "html-to-pdf" }

/-- The Merge tool selection. -/
def cInpMerge : ToolInputs := { baseInputs with view := View.merge }

/-- Compress view on the image sub-tool, auto mode, slider 2
(scenario B of the spec). -/
def cInpCompressImg : ToolInputs :=
  { baseInputs with view := View.compress, subTool := "comp-img", slider := 2 }

/-- Resize view with no explicit width/height and 50% scale
(scenario C of the spec). -/
def cInpResize50 : ToolInputs :=
  { baseInputs with view := View.resize, subTool := "resize-img", scalePct := 50 }

/-- An environment where every upload succeeds and the conversion
returns an empty output list. -/
def cEnvUploadsOk : Env :=
  { upload := fun _ => some "https://blob.example/staged", convert := ConvertResult.ok [] }

/-- An environment where the upload succeeds and the conversion returns
one output file. -/
def cEnvConvertOk : Env :=
  { upload := fun _ => some "https://blob.example/staged",
    convert := ConvertResult.ok
      [{ Url := "https://out/result.pdf", FileName := "result.pdf", FileSize := 512 }] }

/-- An environment where the upload succeeds and the conversion responds
with HTTP 500. -/
def cEnvHttp500 : Env :=
  { upload := fun _ => some "https://blob.example/staged", convert := ConvertResult.notOk 500 }

/-- An environment for a merge of several files: the i-th upload stages
to URL `toString i`, and the merge conversion returns one output file. -/
def cEnvMergeOk : Env :=
  { upload := fun i => some (toString i),
    convert := ConvertResult.ok
      [{ Url := "https://out/merged.pdf", FileName := "merged.pdf", FileSize := 2048 }] }

/-! ## General lemmas about traces and staging -/

theorem countInc_append (a b : List Event) :
    countInc (a ++ b) = countInc a + countInc b := by
  induction a with
  | nil => simp [countInc]
  | cons e es ih => cases e <;> (simp [countInc, ih]; try omega)

theorem countUploads_append (a b : List Event) :
    countUploads (a ++ b) = countUploads a + countUploads b := by
  induction a with
  | nil => simp [countUploads]
  | cons e es ih => cases e <;> (simp [countUploads, ih]; try omega)

theorem countConverts_append (a b : List Event) :
    countConverts (a ++ b) = countConverts a + countConverts b := by
  induction a with
  | nil => simp [countConverts]
  | cons e es ih => cases e <;> (simp [countConverts, ih]; try omega)

theorem stageLoop_only_uploads (upload : Nat → Option String) (step : ℚ) :
    ∀ count start,
      countInc (stageLoop upload step start count).1 = 0 ∧
      countConverts (stageLoop upload step start count).1 = 0 := by
  intro count
  induction count with
  | zero => intro start; simp [stageLoop, countInc, countConverts]
  | succ k ih =>
    intro start
    cases h : upload start with
    | none => simp [stageLoop, h, countInc, countConverts]
    | some u => simp [stageLoop, h, countInc, countConverts, ih (start + 1)]

theorem stageLoop_all_some (upload : Nat → Option String) (f : Nat → String)
    (step : ℚ) :
    ∀ count start,
      (∀ j, j < count → upload (start + j) = some (f (start + j))) →
      stageLoop upload step start count =
        ((List.range count).map
            (fun j => Event.upload (start + j) (((start + j : Nat) : ℚ) * step) step),
         some ((List.range count).map (fun j => f (start + j)))) := by
  intro count
  induction count with
  | zero => intro start _; simp [stageLoop]
  | succ k ih =>
    intro start h
    have h0 : upload start = some (f start) := by
      have := h 0 (Nat.succ_pos k)
      simpa using this
    have hrest := ih (start + 1) (fun j hj => by
      have := h (j + 1) (Nat.succ_lt_succ hj)
      have harith : start + (j + 1) = start + 1 + j := by omega
      rw [harith] at this
      exact this)
    simp only [stageLoop, h0, hrest, List.range_succ_eq_map, List.map_cons,
      List.map_map, Option.map_some]
    have hfun : ((fun j => Event.upload (start + j) (((start + j : Nat) : ℚ) * step) step)
        ∘ Nat.succ) =
        fun j => Event.upload (start + 1 + j) (((start + 1 + j : Nat) : ℚ) * step) step := by
      funext j
      have harith : start + Nat.succ j = start + 1 + j := by omega
      rw [Function.comp_apply, harith]
    have hfun2 : ((fun j => f (start + j)) ∘ Nat.succ) =
        fun j => f (start + 1 + j) := by
      funext j
      have harith : start + Nat.succ j = start + 1 + j := by omega
      rw [Function.comp_apply, harith]
    simp [hfun, hfun2]
    intro a _
    exact ⟨by omega, Or.inl (by ring)⟩

theorem stageLoop_isSome (upload : Nat → Option String) (step : ℚ) :
    ∀ count start,
      (∀ j, j < count → (upload (start + j)).isSome) →
      (stageLoop upload step start count).2.isSome := by
  intro count
  induction count with
  | zero => intro start _; simp [stageLoop]
  | succ k ih =>
    intro start h
    have h0 : (upload start).isSome := by
      have := h 0 (Nat.succ_pos k)
      simpa using this
    cases hu : upload start with
    | none => rw [hu] at h0; simp at h0
    | some u =>
      have hrest := ih (start + 1) (fun j hj => by
        have := h (j + 1) (Nat.succ_lt_succ hj)
        have harith : start + (j + 1) = start + 1 + j := by omega
        rw [harith] at this
        exact this)
      simp only [stageLoop, hu]
      simp [Option.isSome_map, hrest]

/-! ## C3 — the Usage Gate check blocks iff the limit is reached today,
and performs no write -/

/-- C3: `checkDailyLimit` returns `false` iff the persisted Daily Usage
Record is present with today's date and `count ≥ 5`; and the persisted
record after the call equals the record before it (no mutation). -/
theorem checkDailyLimit_blocks_iff_limit_reached_today
    (store : UsageStore) (today : String) :
    ((checkDailyLimit store today).1 = false ↔
      ∃ r, store = some r ∧ r.date = today ∧ DAILY_LIMIT ≤ r.count) ∧
    (checkDailyLimit store today).2 = store := by
  refine ⟨?_, rfl⟩
  cases store with
  | none => simp [checkDailyLimit, getUsage, DAILY_LIMIT]
  | some r =>
    by_cases h : r.date = today
    · simp only [checkDailyLimit, getUsage, h, ne_eq, not_true_eq_false,
        if_false, decide_eq_false_iff_not, Nat.not_lt, DAILY_LIMIT]
      constructor
      · intro hc; exact ⟨r, rfl, h, hc⟩
      · rintro ⟨r', hr', _, hc⟩
        cases Option.some.inj hr'
        exact hc
    · simp [checkDailyLimit, getUsage, h, DAILY_LIMIT]

/-! ## C4 — increment with day rollover -/

/-- C4: `incrementUsage` on a stored record whose date is stale writes
`{date: today, count: 1}` (the reset to `{date: today, count: 0}`
happening first inside `getUsage`), not `storedCount + 1`; on a record
already dated today it writes `storedCount + 1`. -/
theorem incrementUsage_day_rollover (r : UsageRecord) (today : String) :
    incrementUsage (some r) today =
      some { date := today,
             count := if r.date = today then r.count + 1 else 1 } := by
  by_cases h : r.date = today
  · cases r with
    | mk d c => simp_all [incrementUsage, getUsage]
  · simp [incrementUsage, getUsage, h]

/-! ## C1 — unmapped tool selections fail locally -/

/-- C1 counterexample: with the unmapped sub-tool `"html-to-pdf"` and one
staged file, the run does fail with the unrecognized-tool error — but
Upload Transport has already been invoked once, because
`processFilesWithProxy` stages the file(s) before it calls
`buildConvertTypeAndParams`. This falsifies the claim that no network
call is made on such a run. -/
theorem unmapped_tool_still_uploads :
    (processFilesWithProxy cInpUnmapped [cFileDoc] cEnvUploadsOk none "2026-10-11").outcome
        = Outcome.failure Reason.unrecognizedTool ∧
    countUploads (processFilesWithProxy cInpUnmapped [cFileDoc] cEnvUploadsOk
        none "2026-10-11").events = 1 := by
  decide

/-- C1 (amended): when resolution yields an empty operation name and
staging succeeds, the run fails with the unrecognized-tool error, the
Conversion Invoker is never called, and the usage store is untouched;
the Upload Transport calls, however, have already happened by then. -/
theorem unrecognized_tool_fails_without_convert (inp : ToolInputs) (first : FileData)
    (fs : List FileData) (env : Env) (store : UsageStore) (today : String)
    (hup : ∀ i, i < (first :: fs).length → (env.upload i).isSome)
    (ht : (buildConvertTypeAndParams inp first).1 = "") :
    (processFilesWithProxy inp (first :: fs) env store today).outcome
        = Outcome.failure Reason.unrecognizedTool ∧
    countConverts (processFilesWithProxy inp (first :: fs) env store today).events = 0 ∧
    (processFilesWithProxy inp (first :: fs) env store today).store = store := by
  simp only [processFilesWithProxy]
  generalize hS : (if inp.view = View.merge then
      stageLoop env.upload (70 / (((first :: fs).length : Nat) : ℚ)) 0 (first :: fs).length
    else stageLoop env.upload 70 0 1) = S
  have hConv : countConverts S.1 = 0 := by
    rw [← hS]
    split
    · exact (stageLoop_only_uploads _ _ _ _).2
    · exact (stageLoop_only_uploads _ _ _ _).2
  have hSome : S.2.isSome := by
    rw [← hS]
    split
    · apply stageLoop_isSome
      intro j hj
      simpa using hup j (by simpa using hj)
    · apply stageLoop_isSome
      intro j hj
      have : j = 0 := by omega
      subst this
      simpa using hup 0 (by simp)
  obtain ⟨evs, st2⟩ := S
  simp only at hConv
  cases st2 with
  | none => simp at hSome
  | some urls =>
    simp only [ht, if_pos rfl]
    exact ⟨rfl, by simp [countConverts_append, hConv, countConverts], rfl⟩

/-- C1 witness: the amended theorem evaluated on the unmapped sub-tool
with one file and succeeding uploads. -/
theorem unrecognized_tool_witness :
    (processFilesWithProxy cInpUnmapped [cFileDoc] cEnvUploadsOk none "2026-10-11").outcome
        = Outcome.failure Reason.unrecognizedTool ∧
    countConverts (processFilesWithProxy cInpUnmapped [cFileDoc] cEnvUploadsOk
        none "2026-10-11").events = 0 ∧
    (processFilesWithProxy cInpUnmapped [cFileDoc] cEnvUploadsOk
        none "2026-10-11").store = none :=
  unrecognized_tool_fails_without_convert cInpUnmapped cFileDoc [] cEnvUploadsOk
    none "2026-10-11" (fun _ _ => rfl) (by decide)

/-! ## C2 — usage is incremented exactly once, only on success -/

/-- C2: on every run, when the outcome is success (the conversion
response carried at least one output file) the usage store is incremented
exactly once, at the success transition — the trace ends
`... , incrementUsage, showSuccess` and contains no earlier increment —
and on every failure outcome the trace contains no increment and the
store is unchanged. -/
theorem usage_incremented_iff_success (inp : ToolInputs) (files : List FileData)
    (env : Env) (store : UsageStore) (today : String) :
    ((∀ url, (processFilesWithProxy inp files env store today).outcome = Outcome.success url →
        (processFilesWithProxy inp files env store today).store = incrementUsage store today ∧
        ∃ pre, (processFilesWithProxy inp files env store today).events
            = pre ++ [Event.incUsage, Event.showSuccess] ∧ countInc pre = 0) ∧
     (∀ reason, (processFilesWithProxy inp files env store today).outcome = Outcome.failure reason →
        (processFilesWithProxy inp files env store today).store = store ∧
        countInc (processFilesWithProxy inp files env store today).events = 0)) := by
  cases files with
  | nil =>
    constructor
    · intro url h
      simp [processFilesWithProxy] at h
    · intro reason _
      simp [processFilesWithProxy, countInc]
  | cons first rest =>
    simp only [processFilesWithProxy]
    generalize hS : (if inp.view = View.merge then
        stageLoop env.upload (70 / (((first :: rest).length : Nat) : ℚ)) 0 (first :: rest).length
      else stageLoop env.upload 70 0 1) = S
    obtain ⟨hInc, hConv⟩ : countInc S.1 = 0 ∧ countConverts S.1 = 0 := by
      rw [← hS]
      split
      · exact stageLoop_only_uploads _ _ _ _
      · exact stageLoop_only_uploads _ _ _ _
    obtain ⟨evs, st2⟩ := S
    simp only at hInc hConv
    cases st2 with
    | none =>
      constructor
      · intro url h; simp at h
      · intro reason _
        refine ⟨by simp, ?_⟩
        simp [countInc_append, hInc, countInc]
    | some urls =>
      by_cases ht : (buildConvertTypeAndParams inp first).1 = ""
      · simp only [ht, if_true, if_pos rfl]
        constructor
        · intro url h; simp at h
        · intro reason _
          refine ⟨by simp, ?_⟩
          simp [countInc_append, hInc, countInc]
      · simp only [if_neg ht]
        cases hc : env.convert with
        | timeout =>
          constructor
          · intro url h; simp at h
          · intro reason _
            refine ⟨by simp, ?_⟩
            simp [countInc_append, hInc, countInc]
        | notOk s =>
          constructor
          · intro url h; simp at h
          · intro reason _
            refine ⟨by simp, ?_⟩
            simp [countInc_append, hInc, countInc]
        | okMalformed =>
          constructor
          · intro url h; simp at h
          · intro reason _
            refine ⟨by simp, ?_⟩
            simp [countInc_append, hInc, countInc]
        | ok fs =>
          cases fs with
          | nil =>
            constructor
            · intro url h; simp at h
            · intro reason _
              refine ⟨by simp, ?_⟩
              simp [countInc_append, hInc, countInc]
          | cons f0 fs' =>
            constructor
            · intro url h
              refine ⟨by simp, ?_⟩
              refine ⟨evs ++ [Event.convertCall
                (if inp.view = View.merge then none else urls.head?)
                (if inp.view = View.merge then some urls else none)
                (buildConvertTypeAndParams inp first).1], ?_, ?_⟩
              · simp
              · simp [countInc_append, hInc, countInc]
            · intro reason h; simp at h

/-- C2 witness: a successful Convert run on a usage store at count 2
leaves the store incremented (to count 3). -/
theorem usage_increment_witness :
    (processFilesWithProxy baseInputs [cFileDoc] cEnvConvertOk
        (some { date := "2026-10-11", count := 2 }) "2026-10-11").store
      = incrementUsage (some { date := "2026-10-11", count := 2 }) "2026-10-11" := by
  have h := usage_incremented_iff_success baseInputs [cFileDoc] cEnvConvertOk
    (some { date := "2026-10-11", count := 2 }) "2026-10-11"
  exact (h.1 "https://out/result.pdf" (by decide)).1

/-! ## C5 — every failure path restores the Idle reset state -/

/-- C5: whatever the failure reason (no file, unrecognized operation,
upload failure, timeout, non-OK response, malformed body, zero outputs),
the run ends in the reset UI state: staged files emptied, `resultUrl`
null, progress 0, drop-zone screen shown. -/
theorem failure_paths_reset_to_idle (inp : ToolInputs) (files : List FileData)
    (env : Env) (store : UsageStore) (today : String) (reason : Reason)
    (h : (processFilesWithProxy inp files env store today).outcome = Outcome.failure reason) :
    (processFilesWithProxy inp files env store today).ui = resetUIState := by
  cases files with
  | nil => rfl
  | cons first rest =>
    simp only [processFilesWithProxy] at h ⊢
    revert h
    generalize (if inp.view = View.merge then
        stageLoop env.upload (70 / (((first :: rest).length : Nat) : ℚ)) 0 (first :: rest).length
      else stageLoop env.upload 70 0 1) = S
    obtain ⟨evs, st2⟩ := S
    cases st2 with
    | none => intro _; rfl
    | some urls =>
      by_cases ht : (buildConvertTypeAndParams inp first).1 = ""
      · simp only [ht, if_pos rfl]
        intro _; rfl
      · simp only [if_neg ht]
        cases env.convert with
        | timeout => intro _; rfl
        | notOk s => intro _; rfl
        | okMalformed => intro _; rfl
        | ok fs =>
          cases fs with
          | nil => intro _; rfl
          | cons f0 fs' => intro h; simp at h

/-- C5 witness: a run whose conversion responds HTTP 500 ends in the
reset UI state. -/
theorem failure_reset_witness :
    (processFilesWithProxy baseInputs [cFileDoc] cEnvHttp500 none "2026-10-11").ui
      = resetUIState :=
  failure_paths_reset_to_idle baseInputs [cFileDoc] cEnvHttp500 none "2026-10-11"
    (Reason.convertHttpError 500) (by decide)

/-! ## C6 — merge stages N files sequentially, then converts once -/

/-- C6: a Merge run over `n ≥ 1` files whose uploads all succeed emits
exactly the `n` upload events in file order — each spanning `70 / n`
progress points, the i-th starting at offset `i * (70 / n)` — followed by
exactly one Conversion Invoker call that carries all `n` staged URLs in
file order; no further upload or convert event follows. -/
theorem merge_stages_sequentially_then_single_convert
    (inp : ToolInputs) (first : FileData) (fs : List FileData) (env : Env)
    (store : UsageStore) (today : String) (f : Nat → String)
    (hv : inp.view = View.merge)
    (hup : ∀ i, i < (first :: fs).length → env.upload i = some (f i)) :
    ∃ rest,
      (processFilesWithProxy inp (first :: fs) env store today).events
        = (List.range (first :: fs).length).map
            (fun i => Event.upload i ((i : ℚ) * (70 / ((first :: fs).length : ℚ)))
              (70 / ((first :: fs).length : ℚ)))
          ++ Event.convertCall none
              (some ((List.range (first :: fs).length).map f)) "pdf/to/merge" :: rest
      ∧ countUploads rest = 0 ∧ countConverts rest = 0 := by
  simp only [processFilesWithProxy, hv, if_pos rfl]
  have hstage := stageLoop_all_some env.upload f (70 / (((first :: fs).length : Nat) : ℚ))
    (first :: fs).length 0 (fun j hj => by simpa using hup j (by simpa using hj))
  rw [hstage]
  have hbt : (buildConvertTypeAndParams inp first).1 = "pdf/to/merge" := by
    simp [buildConvertTypeAndParams, hv]
  simp only [hbt]
  have hne : ¬ ("pdf/to/merge" = "") := by decide
  simp only [if_neg hne]
  cases env.convert with
  | timeout =>
    refine ⟨[Event.reset], ?_, by simp [countUploads], by simp [countConverts]⟩
    simp [countUploads, countConverts]
  | notOk s =>
    refine ⟨[Event.reset, Event.reset], ?_, by simp [countUploads], by simp [countConverts]⟩
    simp
  | okMalformed =>
    refine ⟨[Event.reset], ?_, by simp [countUploads], by simp [countConverts]⟩
    simp
  | ok outs =>
    cases outs with
    | nil =>
      refine ⟨[Event.reset], ?_, by simp [countUploads], by simp [countConverts]⟩
      simp
    | cons f0 fs' =>
      refine ⟨[Event.incUsage, Event.showSuccess], ?_, by simp [countUploads],
        by simp [countConverts]⟩
      simp

/-- C6 witness: the merge theorem evaluated on three files whose i-th
upload stages to URL `toString i`. -/
theorem merge_three_files_witness :
    ∃ rest,
      (processFilesWithProxy cInpMerge (cFileDoc :: [cFileDoc, cFileDoc]) cEnvMergeOk
          none "2026-10-11").events
        = (List.range (cFileDoc :: [cFileDoc, cFileDoc]).length).map
            (fun i => Event.upload i
              ((i : ℚ) * (70 / ((cFileDoc :: [cFileDoc, cFileDoc]).length : ℚ)))
              (70 / ((cFileDoc :: [cFileDoc, cFileDoc]).length : ℚ)))
          ++ Event.convertCall none
              (some ((List.range (cFileDoc :: [cFileDoc, cFileDoc]).length).map
                (fun i => toString i)))
              "pdf/to/merge" :: rest
      ∧ countUploads rest = 0 ∧ countConverts rest = 0 :=
  merge_stages_sequentially_then_single_convert cInpMerge cFileDoc [cFileDoc, cFileDoc]
    cEnvMergeOk none "2026-10-11" (fun i => toString i) rfl (fun _ _ => rfl)

/-! ## C7 — compress auto mode: preset tiers and image quality -/

/-- C7 counterexample: Compress auto at slider 2 on a PNG image reaches
the aggressive preset, but sets no `Quality` parameter at all — the code
only sets `Quality` when the normalized extension is `"jpg"`. This
falsifies the claim that every image target gets `Quality = "20"`. -/
theorem compress_auto_png_quality_unset :
    (buildConvertTypeAndParams cInpCompressImg cFilePng).2.Preset = some "screen" ∧
    (buildConvertTypeAndParams cInpCompressImg cFilePng).2.Quality = none := by
  decide

/-- C7 (amended): in Compress auto mode on an image sub-tool, the preset
is `"screen"` for slider ≤ 3, `"ebook"` for slider 4–6, `"printer"`
above; and `Quality` is the string of `slider*10` clamped to `[10, 95]`
when the normalized source extension is `"jpg"`, and is not set for any
other image target. -/
theorem compress_auto_preset_tiers_quality_jpg_only (inp : ToolInputs) (file : FileData)
    (hv : inp.view = View.compress) (hst : inp.subTool ≠ "comp-pdf")
    (hm : inp.compMode = "auto") :
    (buildConvertTypeAndParams inp file).2.Preset =
      some (if inp.slider ≤ 3 then "screen"
            else if inp.slider ≤ 6 then "ebook" else "printer") ∧
    (buildConvertTypeAndParams inp file).2.Quality =
      (if normalizeImageExt (getFileExt file) = "jpg"
       then some (toString (max 10 (min 95 (inp.slider * 10)))) else none) := by
  simp [buildConvertTypeAndParams, hv, hst, hm]

/-- C7 witness: slider 2 on a JPEG image yields the aggressive preset
and `Quality = "20"`. -/
theorem compress_auto_jpg_witness :
    (buildConvertTypeAndParams cInpCompressImg cFileJpg).2.Preset = some "screen" ∧
    (buildConvertTypeAndParams cInpCompressImg cFileJpg).2.Quality = some "20" := by
  obtain ⟨h1, h2⟩ := compress_auto_preset_tiers_quality_jpg_only cInpCompressImg cFileJpg
    rfl (by decide) rfl
  rw [h1, h2]
  constructor
  · decide
  · decide

/-! ## C8 — resize parameter resolution -/

/-- C8: in the Resize view, explicit (trimmed, nonempty) width/height
strings are passed through verbatim as `ImageWidth`/`ImageHeight`; with
no explicit dimensions and a scale percent other than 100, each
dimension is the string of `max 1 (round(natural * percent / 100))`,
computed independently per dimension (`(n*pct + 50) / 100` is JS
`Math.round(n*pct/100)` for natural inputs). -/
theorem resize_params_resolution (inp : ToolInputs) (file : FileData)
    (hv : inp.view = View.resize)
    (hw : jsTrim inp.resizeW = inp.resizeW) (hh : jsTrim inp.resizeH = inp.resizeH) :
    ((inp.resizeW ≠ "" ∨ inp.resizeH ≠ "") →
      (buildConvertTypeAndParams inp file).2.ImageWidth
          = (if inp.resizeW ≠ "" then some inp.resizeW else none) ∧
      (buildConvertTypeAndParams inp file).2.ImageHeight
          = (if inp.resizeH ≠ "" then some inp.resizeH else none)) ∧
    (inp.resizeW = "" → inp.resizeH = "" → inp.scalePct ≠ 100 →
      (buildConvertTypeAndParams inp file).2.ImageWidth
          = some (toString (max 1 ((file.width * inp.scalePct + 50) / 100))) ∧
      (buildConvertTypeAndParams inp file).2.ImageHeight
          = some (toString (max 1 ((file.height * inp.scalePct + 50) / 100)))) := by
  constructor
  · intro hwh
    simp [buildConvertTypeAndParams, hv, hw, hh, hwh]
  · intro hw0 hh0 hpct
    simp [buildConvertTypeAndParams, hv, hw, hh, hw0, hh0, hpct, jsTrim]

/-- C8 witness: 50% scale on an 800×600 image with no explicit
dimensions yields `ImageWidth = "400"` and `ImageHeight = "300"`. -/
theorem resize_scale50_witness :
    (buildConvertTypeAndParams cInpResize50 cFile800).2.ImageWidth = some "400" ∧
    (buildConvertTypeAndParams cInpResize50 cFile800).2.ImageHeight = some "300" := by
  obtain ⟨h1, h2⟩ := (resize_params_resolution cInpResize50 cFile800 rfl rfl rfl).2
    rfl rfl (by decide)
  rw [h1, h2]
  constructor
  · decide
  · decide

/-! ## C9 — upload retry policy -/

/-- C9 counterexample: a 5 MiB file ( > 4.5 MiB, so `multipart = true`)
whose attempts all fail is retried exactly once, but the retry runs with
`multipart = true` again — the multipart decision is computed once from
the file size and reused, so the retry is not the claimed conservative
non-chunked mode. -/
theorem upload_retry_keeps_multipart :
    multipartDecision 5242880 = true ∧
    (uploadToBlobAttempts 5242880 (fun _ => none)).1
        = [{ multipart := true }, { multipart := true }] ∧
    (uploadToBlobAttempts 5242880 (fun _ => none)).2 = BlobOutcome.failed := by
  decide

/-- C9 (amended): a failed upload attempt is retried at most once (never
more than two attempts); every attempt, including the retry, uses the
same transfer mode — multipart iff the file exceeds 4.5 MiB; after a
second failure no further attempt is made and the upload fails; a
successful first attempt is never retried. -/
theorem upload_retry_policy (size : Nat) (att : Nat → Option String) :
    (uploadToBlobAttempts size att).1.length ≤ 2 ∧
    (∀ a ∈ (uploadToBlobAttempts size att).1, a.multipart = multipartDecision size) ∧
    (att 1 = none → att 2 = none →
      (uploadToBlobAttempts size att).2 = BlobOutcome.failed ∧
      (uploadToBlobAttempts size att).1.length = 2) ∧
    (∀ u, att 1 = some u →
      (uploadToBlobAttempts size att).1.length = 1 ∧
      (uploadToBlobAttempts size att).2 = BlobOutcome.ok u) := by
  unfold uploadToBlobAttempts
  cases h1 : att 1 with
  | none =>
    cases h2 : att 2 with
    | none => simp [h1, h2]
    | some u => simp [h1, h2]
  | some u => simp [h1]

/-- C9 witness: the amended policy evaluated on a 5 MiB file with two
failing attempts. -/
theorem upload_retry_witness :
    (uploadToBlobAttempts 5242880 (fun _ => none)).2 = BlobOutcome.failed ∧
    (uploadToBlobAttempts 5242880 (fun _ => none)).1.length = 2 :=
  (upload_retry_policy 5242880 (fun _ => none)).2.2.1 rfl rfl

/-! ## C10 — normalized image extension token -/

/-- C10: `normalizeImageExt` always lands in
`{jpg, png, webp, tiff, bmp}`; `"jpeg"` maps to `"jpg"`; any extension
outside the recognized set (including the empty one) defaults to
`"jpg"`; and the image-compress and resize operation names use exactly
this normalized token. -/
theorem image_ext_token_normalized (ext : String) (inp : ToolInputs) (f : FileData) :
    normalizeImageExt ext ∈ ["jpg", "png", "webp", "tiff", "bmp"] ∧
    normalizeImageExt "jpeg" = "jpg" ∧
    (jsToLower ext ∉ ["jpeg", "jpg", "png", "webp", "tiff", "bmp"] →
      normalizeImageExt ext = "jpg") ∧
    (inp.view = View.compress → inp.subTool ≠ "comp-pdf" →
      (buildConvertTypeAndParams inp f).1
        = normalizeImageExt (getFileExt f) ++ "/to/compress") ∧
    (inp.view = View.resize →
      (buildConvertTypeAndParams inp f).1
        = normalizeImageExt (getFileExt f) ++ "/to/"
            ++ normalizeImageExt (getFileExt f)) := by
  refine ⟨?_, by decide, ?_, ?_, ?_⟩
  · simp only [normalizeImageExt]
    by_cases h1 : jsToLower ext = "jpeg"
    · simp [h1]
    · rw [if_neg h1]
      by_cases h2 : ["jpg", "png", "webp", "tiff", "bmp"].contains (jsToLower ext)
      · rw [if_pos h2]
        simpa using h2
      · rw [if_neg h2]
        decide
  · intro h
    simp only [normalizeImageExt]
    by_cases h1 : jsToLower ext = "jpeg"
    · exact absurd (by simp [h1]) h
    · rw [if_neg h1]
      by_cases h2 : ["jpg", "png", "webp", "tiff", "bmp"].contains (jsToLower ext)
      · refine absurd ?_ h
        have hm : jsToLower ext = "jpg" ∨ jsToLower ext = "png" ∨ jsToLower ext = "webp"
            ∨ jsToLower ext = "tiff" ∨ jsToLower ext = "bmp" := by simpa using h2
        rcases hm with hm | hm | hm | hm | hm <;> simp [hm]
      · rw [if_neg h2]
  · intro hv hst
    by_cases hm : inp.compMode = "auto" <;>
      simp [buildConvertTypeAndParams, hv, hst, hm]
  · intro hv
    simp [buildConvertTypeAndParams, hv]
    split_ifs <;> simp

/-- C10 witness: the unrecognized extension `"GIF"` normalizes to
`"jpg"`, and a PNG file on the compress image sub-tool resolves to the
operation name `"png/to/compress"`. -/
theorem image_ext_token_witness :
    normalizeImageExt "GIF" = "jpg" ∧
    (buildConvertTypeAndParams cInpCompressImg cFilePng).1 = "png/to/compress" := by
  have h := image_ext_token_normalized "GIF" cInpCompressImg cFilePng
  refine ⟨h.2.2.1 (by decide), ?_⟩
  rw [h.2.2.2.1 rfl (by decide)]
  decide

end DocuMorph
